import Mathlib

/-!
Verification of the process-control library (dylni/process_control): a
shallow embedding of the crate's wait orchestration (`src/control.rs`,
`src/control/mod.rs`, `src/unix/mod.rs`), of the exit-status
classification (`src/unix/exit_status.rs`, `src/unix.rs`) and of the
dual-pipe reader (`src/unix/read.rs`, `src/control/pipe.rs`), together
with theorems settling the specification's claims against it.

Conventions of the embedding:
* Operating-system calls are modelled by environment records that fix
  the outcome of every call the code can make (an oracle).  Each
  embedded function returns the sequential trace of the calls it
  performs (`List Act`) together with its result, so ordering claims
  become statements about traces.
* Machine integers the code only passes around are modelled by `Int`
  and `Nat`; byte buffers by `List Nat`; durations by `Nat`.
* Fallible calls return `IoResult`; functions that can also unwind via
  `Option::expect` return `Outcome`, whose `panicked` constructor
  records the unwind.
* A background worker abandoned after a timeout keeps running
  concurrently with the caller; its later calls are not part of the
  caller's sequential trace.
* The repository snapshot contains two generations of the orchestration
  code.  Both are embedded: `ExitStatusControl.wait` follows
  `src/control.rs` (with `src/unix.rs` / `src/unix/mod.rs`), and
  `Buffer.wait` follows `src/control/mod.rs` (with `src/unix/mod.rs`).
-/

namespace ProcessControl

/-- An operating-system error: only its identity matters, carried by a code. -/
structure IoError where
  code : Nat
deriving DecidableEq

/-- Embedding of Rust's `io::Result`. -/
inductive IoResult (α : Type) where
  | ok : α → IoResult α
  | err : IoError → IoResult α
deriving DecidableEq

/-- Result of a call that may also unwind (the crate's `WaitResult` plus a
panic outcome for `Option::expect` in `run_wait`). -/
inductive Outcome (α : Type) where
  | ok : Option α → Outcome α
  | err : IoError → Outcome α
  | panicked : Outcome α
deriving DecidableEq

/-- Rust `Result::is_ok` on an `Outcome` (a panic is not an `Ok`). -/
def Outcome.isOk {α : Type} : Outcome α → Bool
  | .ok _ => true
  | _ => false

/-- Whether the outcome is `Ok(Some(_))`, the shape tested by
`matches!(result, Ok(Some(_)))` in `wait`. -/
def Outcome.isOkSome {α : Type} : Outcome α → Bool
  | .ok (some _) => true
  | _ => false

/-! ## Exit statuses (`src/unix/exit_status.rs`, `src/unix.rs`) -/

/-- The portable classification of a wait status (`ExitStatusKind`). -/
inductive ExitStatusKind where
  | Continued
  | Dumped
  | Exited
  | Killed
  | Stopped
  | Trapped
  | Uncategorized
deriving DecidableEq

/-- The crate's `ExitStatus`: a raw value plus its classification. -/
structure ExitStatus where
  value : Int
  kind : ExitStatusKind
deriving DecidableEq

/-- libc's `EXIT_SUCCESS`. -/
def EXIT_SUCCESS : Int := 0

/-- Embeds `code_method!(code, ExitStatusKind::Exited)`: `Some(value)` exactly when
the kind is `Exited`. -/
def ExitStatus.code (s : ExitStatus) : Option Int :=
  if s.kind = .Exited then some s.value else none

/-- Embeds `ExitStatus::success`: `self.code() == Some(EXIT_SUCCESS)`. -/
def ExitStatus.success (s : ExitStatus) : Bool :=
  s.code == some EXIT_SUCCESS

/-- Embeds `code_method!(signal, ExitStatusKind::Dumped | ExitStatusKind::Killed)`. -/
def ExitStatus.signal (s : ExitStatus) : Option Int :=
  if s.kind = .Dumped ∨ s.kind = .Killed then some s.value else none

/-- Embeds `code_method!(stopped_signal, ExitStatusKind::Stopped)`. -/
def ExitStatus.stopped_signal (s : ExitStatus) : Option Int :=
  if s.kind = .Stopped then some s.value else none

/-- Embeds `ExitStatus::continued`: the kind is `Continued`. -/
def ExitStatus.continued (s : ExitStatus) : Bool :=
  s.kind == .Continued

/-- Embeds `ExitStatus::core_dumped`: the kind is `Dumped`. -/
def ExitStatus.core_dumped (s : ExitStatus) : Bool :=
  s.kind == .Dumped

/-- The observable accessors of `std::process::ExitStatus`
(`ExitStatusExt` included), which the `From` conversions consume. -/
structure StdExitStatus where
  code : Option Int
  signal : Option Int
  core_dumped : Bool
  stopped_signal : Option Int
  continued : Bool
  raw : Int
deriving DecidableEq

/-- Embeds `impl From<process::ExitStatus> for ExitStatus` in
`src/unix/exit_status.rs` (the current conversion). -/
def ExitStatus.fromStd (v : StdExitStatus) : ExitStatus :=
  match v.code with
  | some exit_code => ⟨exit_code, .Exited⟩
  | none =>
    match v.signal with
    | some sig => ⟨sig, if v.core_dumped then .Dumped else .Killed⟩
    | none =>
      match v.stopped_signal with
      | some sig => ⟨sig, .Stopped⟩
      | none => ⟨v.raw, if v.continued then .Continued else .Uncategorized⟩

/-- Embeds `impl From<process::ExitStatus> for ExitStatus` in `src/unix.rs` (the
older conversion used by `src/control.rs`). -/
def ExitStatus.fromStdOld (v : StdExitStatus) : ExitStatus :=
  match v.code with
  | some exit_code => ⟨exit_code, .Exited⟩
  | none =>
    match v.signal with
    | some sig => ⟨sig, .Killed⟩
    | none => ⟨-1, .Uncategorized⟩

/-- Modelled from the spec: `ExitStatus::new` is called by
`src/control/mod.rs` but lives in the newer `lib.rs`, which is not part of
this snapshot.  Per the spec (section 3) the portable status is the
platform classification, derived once per process lifetime; the consuming
standard-library status only confirms that the process was reaped. -/
def ExitStatus.new (peeked : ExitStatus) (_reaped : StdExitStatus) : ExitStatus :=
  peeked

/-! ## Actions and environments for the wait orchestration -/

/-- Flags passed to the `waitid` syscall. -/
inductive WaitFlag where
  | WEXITED
  | WNOWAIT
  | WSTOPPED
deriving DecidableEq

/-- One observable operating-system interaction of the orchestration.
`tryWait` is `Child::try_wait` (non-blocking), `reap` is the blocking
consuming `Child::wait`, `kill` is `Child::kill` /
`terminate_if_running`, `waitid` the blocking no-reap status peek, and
`spawnWaiter` the creation of the background wait thread. -/
inductive Act where
  | takeStdin
  | tryWait
  | setMemoryLimit (limit : Nat)
  | spawnWaiter
  | waitid (flags : List WaitFlag)
  | kill
  | reap
deriving DecidableEq

/-- The flag set `WEXITED | WNOWAIT | WSTOPPED` used by `SharedHandle::wait`. -/
def waitidFlags : List WaitFlag := [.WEXITED, .WNOWAIT, .WSTOPPED]

/-- Oracle for `run_with_time_limit`: whether spawning the worker thread
succeeds, whether the deadline elapses before the rendezvous, and the
behaviour of the `waitid` retry loop run by the worker (how many `EINTR`
interruptions occur before a final result). -/
structure WaiterEnv where
  spawn : IoResult Unit
  timedOut : Bool
  eintrRetries : Nat
  loopResult : IoResult ExitStatus
deriving DecidableEq

/-- Trace of the `waitid` retry loop in `SharedHandle::wait`: every
`EINTR`-interrupted attempt plus the final one is a `waitid` call with
`WEXITED | WNOWAIT | WSTOPPED`. -/
def waitidLoopTrace (env : WaiterEnv) : List Act :=
  List.replicate (env.eintrRetries + 1) (Act.waitid waitidFlags)

/-- Embeds `run_with_time_limit` (`src/unix/mod.rs`): with no time limit the body
runs on the caller's thread; otherwise a worker is spawned and the caller
receives its result through a channel bounded by the deadline, yielding
`Ok(None)` when the deadline elapses first (the worker is abandoned, so
its remaining calls are not in the caller's trace). -/
def run_with_time_limit {α : Type} (time_limit : Option Nat) (env : WaiterEnv)
    (bodyTrace : List Act) (bodyResult : α) : List Act × IoResult (Option α) :=
  match time_limit with
  | none => (bodyTrace, .ok (some bodyResult))
  | some _ =>
    match env.spawn with
    | .err e => ([Act.spawnWaiter], .err e)
    | .ok _ =>
      if env.timedOut then ([Act.spawnWaiter], .ok none)
      else (Act.spawnWaiter :: bodyTrace, .ok (some bodyResult))

/-- The `?`-plus-`transpose` step at the end of `SharedHandle::wait`. -/
def transposeR {α : Type} : IoResult (Option (IoResult α)) → IoResult (Option α)
  | .err e => .err e
  | .ok none => .ok none
  | .ok (some (.ok a)) => .ok (some a)
  | .ok (some (.err e)) => .err e

/-- The crate's `SharedHandle` (pid omitted: the oracle answers for it). -/
structure SharedHandle where
  memory_limit : Option Nat
  time_limit : Option Nat
deriving DecidableEq

/-- Oracle for `SharedHandle::wait`: result of the `prlimit` call and the
behaviour of the bounded wait. -/
structure SharedWaitEnv where
  setLimit : IoResult Unit
  waiter : WaiterEnv
deriving DecidableEq

/-- The bounded-wait core of `SharedHandle::wait`: `run_with_time_limit`
applied to the `waitid` retry loop, then `?.transpose()`. -/
def SharedHandle.waitCore (h : SharedHandle) (env : SharedWaitEnv) :
    List Act × IoResult (Option ExitStatus) :=
  ((run_with_time_limit h.time_limit env.waiter (waitidLoopTrace env.waiter)
      env.waiter.loopResult).fst,
    transposeR (run_with_time_limit h.time_limit env.waiter
      (waitidLoopTrace env.waiter) env.waiter.loopResult).snd)

/-- Embeds `SharedHandle::wait` (`src/unix/mod.rs`): apply the memory limit if one
was requested (failure aborts), then run the bounded `waitid` wait. -/
def SharedHandle.wait (h : SharedHandle) (env : SharedWaitEnv) :
    List Act × IoResult (Option ExitStatus) :=
  match h.memory_limit with
  | none => h.waitCore env
  | some limit =>
    match env.setLimit with
    | .err e => ([Act.setMemoryLimit limit], .err e)
    | .ok _ =>
      (Act.setMemoryLimit limit :: (h.waitCore env).fst, (h.waitCore env).snd)

/-- Oracle for a whole `wait()` session: the answers to every standard-
library call on the `Child` plus the `SharedHandle` oracle.  `tryWait0` is
the initial non-blocking probe, `tryWait1` the consuming check on the
completed path of `src/control/mod.rs`, `kill`/`reap` the post-timeout
termination and consuming reap, and `tryWaitFinal` the final probe of
`src/control.rs`. -/
structure ControlEnv where
  tryWait0 : IoResult (Option StdExitStatus)
  shared : SharedWaitEnv
  tryWait1 : IoResult (Option StdExitStatus)
  kill : IoResult Unit
  reap : IoResult StdExitStatus
  tryWaitFinal : IoResult (Option StdExitStatus)
deriving DecidableEq

/-- The options record of `src/control/mod.rs` (the stdout/stderr filters
belong to the pipe model below and are carried there). -/
structure Options where
  memory_limit : Option Nat
  time_limit : Option Nat
deriving DecidableEq

/-- The `Buffer` session of `src/control/mod.rs`. -/
structure Buffer where
  options : Options
  strict_errors : Bool
  terminate_for_timeout : Bool
deriving DecidableEq

/-- The `SharedHandle` that `run_wait` builds from the options. -/
def Options.handle (o : Options) : SharedHandle :=
  ⟨o.memory_limit, o.time_limit⟩

/-- Embeds `impl Process for &mut Child { fn run_wait }` (`src/control/mod.rs`):
probe with `try_wait` and return immediately on an already-collected
status; otherwise apply the memory limit, run the bounded wait, and on a
completed peek perform the consuming `try_wait`, whose missing status is
an `expect` panic. -/
def childRunWait (options : Options) (env : ControlEnv) :
    List Act × Outcome ExitStatus :=
  match env.tryWait0 with
  | .ok (some s) => ([Act.tryWait], .ok (some (ExitStatus.fromStd s)))
  | _ =>
    match (options.handle.wait env.shared).snd with
    | .err e =>
      (Act.tryWait :: (options.handle.wait env.shared).fst, .err e)
    | .ok none =>
      (Act.tryWait :: (options.handle.wait env.shared).fst, .ok none)
    | .ok (some peeked) =>
      match env.tryWait1 with
      | .err e =>
        (Act.tryWait :: (options.handle.wait env.shared).fst ++ [Act.tryWait],
          .err e)
      | .ok none =>
        (Act.tryWait :: (options.handle.wait env.shared).fst ++ [Act.tryWait],
          .panicked)
      | .ok (some stdStatus) =>
        (Act.tryWait :: (options.handle.wait env.shared).fst ++ [Act.tryWait],
          .ok (some (ExitStatus.new peeked stdStatus)))

/-- The post-timeout cleanup `process.kill().and_then(|()| process.wait())`:
the kill always runs in the branch, the consuming reap only if it
succeeded. -/
def killAndReap (env : ControlEnv) : List Act × IoResult StdExitStatus :=
  match env.kill with
  | .err e => ([Act.kill], .err e)
  | .ok _ => ([Act.kill, Act.reap], env.reap)

/-- Embeds `Buffer::wait` (`src/control/mod.rs`): drop stdin, run the primary
wait, and unless the primary result is `Ok(Some(_))` run the
termination-on-timeout cleanup, whose error replaces the result only under
`strict_errors` and only when the result is still `Ok`. -/
def Buffer.wait (b : Buffer) (env : ControlEnv) : List Act × Outcome ExitStatus :=
  match (childRunWait b.options env).snd with
  | .panicked => (Act.takeStdin :: (childRunWait b.options env).fst, .panicked)
  | result =>
    if b.terminate_for_timeout && !result.isOkSome then
      (Act.takeStdin :: (childRunWait b.options env).fst ++ (killAndReap env).fst,
        if b.strict_errors && result.isOk then
          match (killAndReap env).snd with
          | .err e => .err e
          | .ok _ => result
        else result)
    else (Act.takeStdin :: (childRunWait b.options env).fst, result)

/-- The `ExitStatusControl` session of `src/control.rs`. -/
structure ExitStatusControl where
  memory_limit : Option Nat
  time_limit : Option Nat
  strict_errors : Bool
  terminate_for_timeout : Bool
deriving DecidableEq

/-- Embeds `ExitStatusControl::run_wait` (`src/control.rs`): probe with
`try_wait`, return an already-collected status immediately, otherwise set
the memory limit and run the bounded handle wait (its peeked status is the
result; no consuming check here). -/
def ExitStatusControl.handle (c : ExitStatusControl) : SharedHandle :=
  ⟨c.memory_limit, c.time_limit⟩

def ExitStatusControl.run_wait (c : ExitStatusControl) (env : ControlEnv) :
    List Act × Outcome ExitStatus :=
  match env.tryWait0 with
  | .ok (some s) => ([Act.tryWait], .ok (some (ExitStatus.fromStdOld s)))
  | _ =>
    (Act.tryWait :: (c.handle.wait env.shared).fst,
      match (c.handle.wait env.shared).snd with
      | .err e => .err e
      | .ok none => .ok none
      | .ok (some s) => .ok (some s))

/-- The first two steps of `ExitStatusControl::wait` (`src/control.rs`):
drop stdin, run the primary wait, and unless the result is `Ok(Some(_))`
run `terminate_if_running` plus the consuming reap, surfacing their error
only under `strict_errors` and only over a still-`Ok` result. -/
def ExitStatusControl.killStage (c : ExitStatusControl) (env : ControlEnv) :
    List Act × Outcome ExitStatus :=
  match (c.run_wait env).snd with
  | .panicked => (Act.takeStdin :: (c.run_wait env).fst, .panicked)
  | result =>
    if c.terminate_for_timeout && !result.isOkSome then
      (Act.takeStdin :: (c.run_wait env).fst ++ (killAndReap env).fst,
        if c.strict_errors && result.isOk then
          match (killAndReap env).snd with
          | .err e => .err e
          | .ok _ => result
        else result)
    else (Act.takeStdin :: (c.run_wait env).fst, result)

/-- Embeds `ExitStatusControl::wait` (`src/control.rs`): after the kill stage,
`try_run!(|| self.process.try_wait())` performs the final non-blocking
check, but only when the result so far `is_ok`; its error then replaces
the result regardless of `strict_errors`. -/
def ExitStatusControl.wait (c : ExitStatusControl) (env : ControlEnv) :
    List Act × Outcome ExitStatus :=
  if (c.killStage env).snd.isOk then
    ((c.killStage env).fst ++ [Act.tryWait],
      match env.tryWaitFinal with
      | .err e => .err e
      | .ok _ => (c.killStage env).snd)
  else c.killStage env

/-! ## Trace predicates for the ordering claims -/

/-- Whether an action is the blocking no-reap status peek. -/
def Act.isWaitid : Act → Bool
  | .waitid _ => true
  | _ => false

/-- No `waitid` peek occurs at or after the first `kill` in the trace:
every peek of the bounded wait precedes the termination decision. -/
def peekBeforeKill (tr : List Act) : Bool :=
  !((tr.dropWhile (fun a => !(a == Act.kill))).any Act.isWaitid)

/-- No consuming `reap` occurs before the first `kill` in the trace: the
termination precedes the final consuming reap. -/
def killBeforeReap (tr : List Act) : Bool :=
  (tr.takeWhile (fun a => !(a == Act.kill))).all (fun a => !(a == Act.reap))

/-- Every `waitid` call in the trace carries the no-reap flag `WNOWAIT`. -/
def waitidNoReap (tr : List Act) : Bool :=
  tr.all fun a =>
    match a with
    | .waitid flags => flags.contains WaitFlag.WNOWAIT
    | _ => true

/-- Whether an action neither consumes the process's status nor terminates
it (used to state that the bounded wait never reaps nor kills). -/
def nonConsumingAct (a : Act) : Bool :=
  !(a == Act.reap) && !(a == Act.tryWait) && !(a == Act.kill)

/-! ## Dual-pipe reader (`src/control/pipe.rs`, `src/unix/read.rs`) -/

/-- A per-chunk filter: `Fn(&[u8]) -> io::Result<bool>`. -/
def PFilter : Type := List Nat → IoResult Bool

/-- The crate's `Pipe` (`src/control/pipe.rs`): the readable endpoint is
represented by the byte schedule in the reader's environment, so only the
filter is carried. -/
structure Pipe where
  filter : PFilter

/-- Embeds `Pipe::new`: a missing filter defaults to the constant accept-all
filter `|_| Ok(true)`. -/
def Pipe.new (filter : Option PFilter) : Pipe :=
  ⟨filter.getD (fun _ => .ok true)⟩

/-- Embeds `Pipe::run_filter`: run the filter on `buffer[index..]` (the newly
appended suffix) and truncate the buffer back to `index` if it rejects. -/
def Pipe.run_filter (p : Pipe) (buffer : List Nat) (index : Nat) :
    IoResult (List Nat) :=
  match p.filter (buffer.drop index) with
  | .err e => .err e
  | .ok true => .ok buffer
  | .ok false => .ok (buffer.take index)

/-- How one `read_to_end` call on the non-blocking pipe ends: end of
stream (`Ok`), `WouldBlock` (more to come), or another error. -/
inductive ReadEnd where
  | eof
  | wouldBlock
  | fail (e : IoError)
deriving DecidableEq

/-- One read event delivered by the pipe: the bytes appended by
`read_to_end` before it returned, and how it returned. -/
structure ReadEvent where
  chunk : List Nat
  outcome : ReadEnd
deriving DecidableEq

/-- Embeds `AsyncPipe::next_result` (`src/unix/read.rs`): append the bytes read,
translate the read result (`Ok` means end of stream and the stream is
finished; `WouldBlock` means keep waiting), propagate other errors before
filtering, and, when bytes were appended, run the filter on exactly the
new suffix.  Returns the continue flag and the new buffer. -/
def next_result (p : Pipe) (buffer : List Nat) (ev : ReadEvent) :
    IoResult (Bool × List Nat) :=
  match (match ev.outcome with
         | .eof => IoResult.ok false
         | .wouldBlock => IoResult.ok true
         | .fail e => IoResult.err e) with
  | .err e => .err e
  | .ok result =>
    if (buffer ++ ev.chunk).length ≠ buffer.length then
      match p.run_filter (buffer ++ ev.chunk) buffer.length with
      | .err e => .err e
      | .ok buffer3 => .ok (result, buffer3)
    else .ok (result, buffer ++ ev.chunk)

/-- Result of one `poll` call: `EINTR` (retry), another error (abort), or
a readiness report for the two descriptor slots. -/
inductive PollOutcome where
  | interrupted
  | failed (e : IoError)
  | ready (revents : Bool × Bool)
deriving DecidableEq

/-- Environment for one iteration of the `read2` loop: the `poll` outcome
and the read event each stream would deliver if drained. -/
structure Round where
  poll : PollOutcome
  events : ReadEvent × ReadEvent
deriving DecidableEq

/-- State of the `read2` loop: the active window `fds[start..start+length]`,
the two accumulation buffers, and (ghost, for the specification) which
streams have reached end of stream. -/
structure R2State where
  start : Nat
  length : Nat
  bufs : List Nat × List Nat
  eof : Bool × Bool
deriving DecidableEq

/-- Stream `i`'s pipe. -/
def getP (p : Pipe × Pipe) (i : Nat) : Pipe :=
  if i = 0 then p.1 else p.2

/-- Stream `i`'s readiness bit. -/
def getR (p : Bool × Bool) (i : Nat) : Bool :=
  if i = 0 then p.1 else p.2

/-- Stream `i`'s read event for this round. -/
def getEv (p : ReadEvent × ReadEvent) (i : Nat) : ReadEvent :=
  if i = 0 then p.1 else p.2

/-- Stream `i`'s buffer. -/
def getBuf (st : R2State) (i : Nat) : List Nat :=
  if i = 0 then st.bufs.1 else st.bufs.2

/-- Replace stream `i`'s buffer. -/
def setBuf (st : R2State) (i : Nat) (v : List Nat) : R2State :=
  { st with bufs := if i = 0 then (v, st.bufs.2) else (st.bufs.1, v) }

/-- Component `i` of a pair of end-of-stream flags. -/
def getE (e : Bool × Bool) (i : Nat) : Bool :=
  if i = 0 then e.1 else e.2

/-- Stream `i`'s ghost end-of-stream flag. -/
def getEof (st : R2State) (i : Nat) : Bool :=
  getE st.eof i

/-- Mark stream `i` as having reached end of stream. -/
def setEofTrue (e : Bool × Bool) (i : Nat) : Bool × Bool :=
  if i = 0 then (true, e.2) else (e.1, true)

/-- The body of `read2`'s inner loop at index `i`:
`fds[i].revents != 0 && pipes[i].next_result()?`, and on a finished stream
the window swap `start = i ^ 1; length -= 1`. -/
def handleIndex (pipes : Pipe × Pipe) (revents : Bool × Bool)
    (evs : ReadEvent × ReadEvent) (st : R2State) (i : Nat) :
    IoResult R2State :=
  if getR revents i then
    match next_result (getP pipes i) (getBuf st i) (getEv evs i) with
    | .err e => .err e
    | .ok (cont, buf2) =>
      let st2 := setBuf st i buf2
      if cont then .ok st2
      else
        .ok { st2 with
          start := i ^^^ 1
          length := st2.length - 1
          eof := setEofTrue st2.eof i }
  else .ok st

/-- Embeds `for i in (start..).take(length)`: fold the inner-loop body over the
window indices captured at the start of the round, aborting on error. -/
def foldIndices (pipes : Pipe × Pipe) (revents : Bool × Bool)
    (evs : ReadEvent × ReadEvent) : R2State → List Nat → IoResult R2State
  | st, [] => .ok st
  | st, i :: is =>
    match handleIndex pipes revents evs st i with
    | .err e => .err e
    | .ok st2 => foldIndices pipes revents evs st2 is

/-- One iteration of `read2`'s `while length != 0` loop: `poll` on the
active window (`EINTR` retries, other errors abort), then drain every
ready stream in the window. -/
def runRound (pipes : Pipe × Pipe) (st : R2State) (r : Round) :
    IoResult R2State :=
  match r.poll with
  | .interrupted => .ok st
  | .failed e => .err e
  | .ready revents =>
    foldIndices pipes revents r.events st (List.range' st.start st.length)

/-- The `read2` readiness loop, fuelled by the round schedule: stops as
soon as the window is empty; `Ok(none)` means the schedule ended with the
loop still running. -/
def read2Loop (pipes : Pipe × Pipe) : R2State → List Round →
    IoResult (Option R2State)
  | st, [] => if st.length = 0 then .ok (some st) else .ok none
  | st, r :: rs =>
    if st.length = 0 then .ok (some st)
    else
      match runRound pipes st r with
      | .err e => .err e
      | .ok st2 => read2Loop pipes st2 rs

/-- Initial `read2` state for `n` present streams. -/
def initState (n : Nat) : R2State :=
  ⟨0, n, ([], []), (false, false)⟩

/-- Embeds `read2` (`src/unix/read.rs`) over `n` present streams: run the loop
from the initial window and return the accumulated buffers. -/
def read2 (n : Nat) (pipes : Pipe × Pipe) (rounds : List Round) :
    IoResult (Option (List Nat × List Nat)) :=
  match read2Loop pipes (initState n) rounds with
  | .err e => .err e
  | .ok none => .ok none
  | .ok (some st) => .ok (some st.bufs)

/-- Index `i` lies in the active window `fds[start..start+length]`. -/
def inWindow (st : R2State) (i : Nat) : Prop :=
  st.start ≤ i ∧ i < st.start + st.length

/-- The loop invariant of `read2` claimed by the specification: the active
window is an interval inside the present streams, and it contains exactly
the streams that have not yet reached end of stream. -/
def windowInv (n : Nat) (st : R2State) : Prop :=
  (st.length ≠ 0 → st.start + st.length ≤ n) ∧
  ∀ i, i < n → (getEof st i = false ↔ inWindow st i)

/-- A schedule delivering one read event per round to stream 0 only
(single-stream runs). -/
def roundsOf (evs : List ReadEvent) : List Round :=
  evs.map fun ev => ⟨.ready (true, false), (ev, ev)⟩

/-- The concatenation of the chunks accepted by a filter: a nonempty
chunk contributes its bytes exactly when the filter accepts it. -/
def acceptedConcat (f : PFilter) : List ReadEvent → List Nat
  | [] => []
  | ev :: evs =>
    (if ev.chunk ≠ [] ∧ f ev.chunk = .ok true then ev.chunk else []) ++
      acceptedConcat f evs

/-! ## Concrete fixtures used by counterexamples and witnesses -/

/-- A standard status for a process that exited with code 0. -/
def sOk : StdExitStatus := ⟨some 0, none, false, none, false, 0⟩

/-- Session fixture: `strict_errors` and `terminate_for_timeout` set, a
one-second time limit. -/
def bStrictTerm : Buffer := ⟨⟨none, some 1000⟩, true, true⟩

/-- Environment fixture: the initial probe finds nothing, the worker
spawns, the deadline elapses, and the post-timeout kill fails with error
code 3. -/
def envTimeoutKillFail : ControlEnv :=
  ⟨.ok none, ⟨.ok (), ⟨.ok (), true, 0, .err ⟨1⟩⟩⟩, .ok none, .err ⟨3⟩,
    .ok sOk, .ok none⟩

/-- Session fixture: only `terminate_for_timeout` set, with a memory limit
of 5 bytes and a one-second time limit. -/
def bTermOnly : Buffer := ⟨⟨some 5, some 1000⟩, false, true⟩

/-- Environment fixture: the initial probe finds nothing and the
memory-limit syscall fails with error code 9, so the primary wait result
is an error, not a timeout. -/
def envLimitFail : ControlEnv :=
  ⟨.ok none, ⟨.err ⟨9⟩, ⟨.ok (), false, 0, .err ⟨1⟩⟩⟩, .ok none, .ok (),
    .ok sOk, .ok none⟩

/-- Session fixture: a plain time limit, no termination, no strict errors. -/
def bPlainTimeout : Buffer := ⟨⟨none, some 1000⟩, false, false⟩

/-- Environment fixture: the deadline elapses and every cleanup call would
succeed. -/
def envTimeout : ControlEnv :=
  ⟨.ok none, ⟨.ok (), ⟨.ok (), true, 0, .err ⟨1⟩⟩⟩, .ok none, .ok (),
    .ok sOk, .ok none⟩

/-- Old-interface session fixture with a memory limit of 5 bytes. -/
def cOld : ExitStatusControl := ⟨some 5, some 1000, false, false⟩

/-- Options fixture: a memory limit of 7 bytes and a zero time limit. -/
def oZeroLimit : Options := ⟨some 7, some 0⟩

/-- Old-interface fixture: memory limit of 7 bytes and a zero time limit. -/
def cZeroLimit : ExitStatusControl := ⟨some 7, some 0, false, false⟩

/-- Environment fixture: the initial probe already finds the collected
exit status. -/
def envCollected : ControlEnv :=
  ⟨.ok (some sOk), ⟨.ok (), ⟨.ok (), false, 0, .err ⟨1⟩⟩⟩, .ok none, .ok (),
    .ok sOk, .ok none⟩

/-- The accept-all pipe (no filter configured). -/
def pipeAll : Pipe := Pipe.new none

/-- A pipe whose filter accepts exactly the one-byte chunks. -/
def pReject2 : Pipe := ⟨fun c => .ok (c.length == 1)⟩

/-- A read event reporting end of stream with no bytes. -/
def evEof : ReadEvent := ⟨[], .eof⟩

/-- A read event delivering two bytes and then would-block. -/
def evChunk : ReadEvent := ⟨[1, 2], .wouldBlock⟩

/-- A round in which only stream 0 is ready and reaches end of stream. -/
def roundFinish0 : Round := ⟨.ready (true, false), (evEof, evEof)⟩

/-- A round in which only stream 1 is ready and reaches end of stream. -/
def roundFinish1 : Round := ⟨.ready (false, true), (evEof, evEof)⟩

/-! ## Helper lemmas about the traces of the wait orchestration -/

theorem mem_waitidLoopTrace {env : WaiterEnv} {a : Act}
    (ha : a ∈ waitidLoopTrace env) : a = Act.waitid waitidFlags := by
  unfold waitidLoopTrace at ha
  exact List.eq_of_mem_replicate ha

theorem waitCore_shape (h : SharedHandle) (env : SharedWaitEnv) :
    (h.waitCore env).fst = waitidLoopTrace env.waiter ∨
    (h.waitCore env).fst = [Act.spawnWaiter] ∨
    (h.waitCore env).fst = Act.spawnWaiter :: waitidLoopTrace env.waiter := by
  unfold SharedHandle.waitCore run_with_time_limit
  cases htl : h.time_limit with
  | none => simp
  | some t =>
    cases hsp : env.waiter.spawn with
    | err e => simp
    | ok u =>
      cases hto : env.waiter.timedOut with
      | true => simp
      | false => simp

theorem mem_waitCore {h : SharedHandle} {env : SharedWaitEnv} {a : Act}
    (ha : a ∈ (h.waitCore env).fst) :
    a = Act.spawnWaiter ∨ a = Act.waitid waitidFlags := by
  rcases waitCore_shape h env with hs | hs | hs <;> rw [hs] at ha
  · exact Or.inr (mem_waitidLoopTrace ha)
  · exact Or.inl (by simpa using ha)
  · rcases List.mem_cons.mp ha with rfl | ha
    · exact Or.inl rfl
    · exact Or.inr (mem_waitidLoopTrace ha)

theorem sharedWait_shape (h : SharedHandle) (env : SharedWaitEnv) :
    (h.wait env).fst = (h.waitCore env).fst ∨
    (∃ l, (h.wait env).fst = [Act.setMemoryLimit l]) ∨
    (∃ l, (h.wait env).fst = Act.setMemoryLimit l :: (h.waitCore env).fst) := by
  unfold SharedHandle.wait
  cases hm : h.memory_limit with
  | none => simp
  | some l =>
    cases hsl : env.setLimit with
    | err e => exact Or.inr (Or.inl ⟨l, rfl⟩)
    | ok u => exact Or.inr (Or.inr ⟨l, rfl⟩)

theorem mem_sharedWait {h : SharedHandle} {env : SharedWaitEnv} {a : Act}
    (ha : a ∈ (h.wait env).fst) :
    a = Act.spawnWaiter ∨ a = Act.waitid waitidFlags ∨
      ∃ l, a = Act.setMemoryLimit l := by
  rcases sharedWait_shape h env with hs | ⟨l, hs⟩ | ⟨l, hs⟩ <;> rw [hs] at ha
  · have h1 := mem_waitCore ha
    tauto
  · have h1 : a = Act.setMemoryLimit l := by simpa using ha
    exact Or.inr (Or.inr ⟨l, h1⟩)
  · rcases List.mem_cons.mp ha with rfl | ha
    · exact Or.inr (Or.inr ⟨l, rfl⟩)
    · have h1 := mem_waitCore ha
      tauto

theorem childRunWait_shape (o : Options) (env : ControlEnv) :
    (childRunWait o env).fst = [Act.tryWait] ∨
    (childRunWait o env).fst =
      Act.tryWait :: (o.handle.wait env.shared).fst ∨
    (childRunWait o env).fst =
      Act.tryWait :: (o.handle.wait env.shared).fst ++ [Act.tryWait] := by
  unfold childRunWait
  cases htw : env.tryWait0 with
  | ok os =>
    cases os with
    | some s => simp
    | none =>
      cases hr : (o.handle.wait env.shared).snd with
      | err e => simp [hr]
      | ok oo =>
        cases oo with
        | none => simp [hr]
        | some peeked =>
          cases htw1 : env.tryWait1 with
          | err e => simp [hr, htw1]
          | ok os1 =>
            cases os1 with
            | none => simp [hr, htw1]
            | some stdS => simp [hr, htw1]
  | err e0 =>
    cases hr : (o.handle.wait env.shared).snd with
    | err e => simp [hr]
    | ok oo =>
      cases oo with
      | none => simp [hr]
      | some peeked =>
        cases htw1 : env.tryWait1 with
        | err e => simp [hr, htw1]
        | ok os1 =>
          cases os1 with
          | none => simp [hr, htw1]
          | some stdS => simp [hr, htw1]

theorem oldRunWait_shape (c : ExitStatusControl) (env : ControlEnv) :
    (c.run_wait env).fst = [Act.tryWait] ∨
    (c.run_wait env).fst = Act.tryWait :: (c.handle.wait env.shared).fst := by
  unfold ExitStatusControl.run_wait
  cases htw : env.tryWait0 with
  | ok os =>
    cases os with
    | some s => simp
    | none => simp
  | err e0 => simp

theorem mem_childRunWait {o : Options} {env : ControlEnv} {a : Act}
    (ha : a ∈ (childRunWait o env).fst) :
    a = Act.tryWait ∨ a = Act.spawnWaiter ∨ a = Act.waitid waitidFlags ∨
      ∃ l, a = Act.setMemoryLimit l := by
  rcases childRunWait_shape o env with h | h | h <;> rw [h] at ha
  · simp only [List.mem_singleton] at ha
    tauto
  · rcases List.mem_cons.mp ha with rfl | ha
    · tauto
    · have h1 := mem_sharedWait ha
      tauto
  · rcases List.mem_cons.mp ha with rfl | ha
    · tauto
    · rcases List.mem_append.mp ha with ha | ha
      · have h1 := mem_sharedWait ha
        tauto
      · simp only [List.mem_singleton] at ha
        tauto

theorem mem_oldRunWait {c : ExitStatusControl} {env : ControlEnv} {a : Act}
    (ha : a ∈ (c.run_wait env).fst) :
    a = Act.tryWait ∨ a = Act.spawnWaiter ∨ a = Act.waitid waitidFlags ∨
      ∃ l, a = Act.setMemoryLimit l := by
  rcases oldRunWait_shape c env with h | h <;> rw [h] at ha
  · simp only [List.mem_singleton] at ha
    tauto
  · rcases List.mem_cons.mp ha with rfl | ha
    · tauto
    · have h1 := mem_sharedWait ha
      tauto

theorem childRunWait_no_kill {o : Options} {env : ControlEnv} :
    Act.kill ∉ (childRunWait o env).fst := by
  intro ha
  rcases mem_childRunWait ha with h | h | h | ⟨l, h⟩ <;> simp at h

theorem childRunWait_no_reap {o : Options} {env : ControlEnv} :
    Act.reap ∉ (childRunWait o env).fst := by
  intro ha
  rcases mem_childRunWait ha with h | h | h | ⟨l, h⟩ <;> simp at h

theorem oldRunWait_no_kill {c : ExitStatusControl} {env : ControlEnv} :
    Act.kill ∉ (c.run_wait env).fst := by
  intro ha
  rcases mem_oldRunWait ha with h | h | h | ⟨l, h⟩ <;> simp at h

theorem oldRunWait_no_reap {c : ExitStatusControl} {env : ControlEnv} :
    Act.reap ∉ (c.run_wait env).fst := by
  intro ha
  rcases mem_oldRunWait ha with h | h | h | ⟨l, h⟩ <;> simp at h

theorem killAndReap_shape (env : ControlEnv) :
    (killAndReap env).fst = [Act.kill] ∨
    (killAndReap env).fst = [Act.kill, Act.reap] := by
  unfold killAndReap
  cases hk : env.kill with
  | err e => simp
  | ok u => simp

theorem bufferWait_shape (b : Buffer) (env : ControlEnv) :
    ∃ tail, (Buffer.wait b env).fst =
      Act.takeStdin :: (childRunWait b.options env).fst ++ tail ∧
      (tail = [] ∨ tail = [Act.kill] ∨ tail = [Act.kill, Act.reap]) := by
  unfold Buffer.wait
  cases hr : (childRunWait b.options env).snd with
  | panicked => exact ⟨[], by simp, Or.inl rfl⟩
  | ok oo =>
    by_cases hg : (b.terminate_for_timeout && !(Outcome.ok oo).isOkSome) = true
    · refine ⟨(killAndReap env).fst, by simp [hg], ?_⟩
      rcases killAndReap_shape env with h | h <;> rw [h]
      · exact Or.inr (Or.inl rfl)
      · exact Or.inr (Or.inr rfl)
    · exact ⟨[], by simp [hg], Or.inl rfl⟩
  | err e =>
    by_cases hg : (b.terminate_for_timeout && !(Outcome.err e : Outcome ExitStatus).isOkSome) = true
    · refine ⟨(killAndReap env).fst, by simp [hg], ?_⟩
      rcases killAndReap_shape env with h | h <;> rw [h]
      · exact Or.inr (Or.inl rfl)
      · exact Or.inr (Or.inr rfl)
    · exact ⟨[], by simp [hg], Or.inl rfl⟩

theorem killStage_shape (c : ExitStatusControl) (env : ControlEnv) :
    ∃ tail, (c.killStage env).fst =
      Act.takeStdin :: (c.run_wait env).fst ++ tail ∧
      (tail = [] ∨ tail = [Act.kill] ∨ tail = [Act.kill, Act.reap]) := by
  unfold ExitStatusControl.killStage
  cases hr : (c.run_wait env).snd with
  | panicked => exact ⟨[], by simp, Or.inl rfl⟩
  | ok oo =>
    by_cases hg : (c.terminate_for_timeout && !(Outcome.ok oo).isOkSome) = true
    · refine ⟨(killAndReap env).fst, by simp [hg], ?_⟩
      rcases killAndReap_shape env with h | h <;> rw [h]
      · exact Or.inr (Or.inl rfl)
      · exact Or.inr (Or.inr rfl)
    · exact ⟨[], by simp [hg], Or.inl rfl⟩
  | err e =>
    by_cases hg : (c.terminate_for_timeout && !(Outcome.err e : Outcome ExitStatus).isOkSome) = true
    · refine ⟨(killAndReap env).fst, by simp [hg], ?_⟩
      rcases killAndReap_shape env with h | h <;> rw [h]
      · exact Or.inr (Or.inl rfl)
      · exact Or.inr (Or.inr rfl)
    · exact ⟨[], by simp [hg], Or.inl rfl⟩

theorem oldWait_shape (c : ExitStatusControl) (env : ControlEnv) :
    ∃ tail, (c.wait env).fst =
      Act.takeStdin :: (c.run_wait env).fst ++ tail ∧
      (tail = [] ∨ tail = [Act.kill] ∨ tail = [Act.kill, Act.reap] ∨
        tail = [Act.tryWait] ∨ tail = [Act.kill, Act.tryWait] ∨
        tail = [Act.kill, Act.reap, Act.tryWait]) := by
  obtain ⟨t1, ht1, h1⟩ := killStage_shape c env
  unfold ExitStatusControl.wait
  by_cases hk : (c.killStage env).snd.isOk = true
  · refine ⟨t1 ++ [Act.tryWait], ?_, ?_⟩
    · rw [if_pos hk, ht1]
      simp
    · rcases h1 with h1 | h1 | h1 <;> rw [h1] <;> simp
  · refine ⟨t1, ?_, ?_⟩
    · rw [if_neg hk, ht1]
    · rcases h1 with h1 | h1 | h1 <;> rw [h1] <;> simp

theorem dropWhile_append_all {p : Act → Bool} {l1 l2 : List Act}
    (h : ∀ a ∈ l1, p a = true) :
    (l1 ++ l2).dropWhile p = l2.dropWhile p := by
  induction l1 with
  | nil => rfl
  | cons x xs ih =>
    have hx := h x (List.mem_cons_self x xs)
    simp only [List.cons_append, List.dropWhile_cons, hx, if_true]
    exact ih fun a ha => h a (List.mem_cons_of_mem x ha)

theorem takeWhile_append_all {p : Act → Bool} {l1 l2 : List Act}
    (h : ∀ a ∈ l1, p a = true) :
    (l1 ++ l2).takeWhile p = l1 ++ l2.takeWhile p := by
  induction l1 with
  | nil => rfl
  | cons x xs ih =>
    have hx := h x (List.mem_cons_self x xs)
    simp only [List.cons_append, List.takeWhile_cons, hx, if_true]
    exact congrArg (x :: ·) (ih fun a ha => h a (List.mem_cons_of_mem x ha))

/-! ## Claim C8: exit-status accessors -/

/-- Claim C8 (confirmed): for every `ExitStatus`, `success()` holds exactly
when the kind is `Exited` with value 0; `code()` is `Some` exactly for
`Exited`; `signal()` is `Some` exactly for `Killed` or `Dumped`;
`stopped_signal()` is `Some` exactly for `Stopped`.  The accessors are
total Lean functions, so none of them can fail. -/
theorem claim_C8 (s : ExitStatus) :
    (s.success = true ↔ s.kind = .Exited ∧ s.value = 0) ∧
    (s.code.isSome = true ↔ s.kind = .Exited) ∧
    (s.signal.isSome = true ↔ s.kind = .Killed ∨ s.kind = .Dumped) ∧
    (s.stopped_signal.isSome = true ↔ s.kind = .Stopped) ∧
    (s.continued = true ↔ s.kind = .Continued) ∧
    (s.core_dumped = true ↔ s.kind = .Dumped) := by
  obtain ⟨v, k⟩ := s
  cases k <;>
    simp [ExitStatus.success, ExitStatus.code, ExitStatus.signal,
      ExitStatus.stopped_signal, ExitStatus.continued, ExitStatus.core_dumped,
      EXIT_SUCCESS]

/-! ## Claim C9: an already-collected status returns immediately -/

/-- Claim C9 (confirmed): if the initial non-blocking `try_wait` reports an
already-collected exit status, `run_wait` returns `Ok(Some(status))` with a
trace consisting of that single probe — no memory limit is applied and no
background waiter is spawned — for every configured memory and time limit
(the options are universally quantified, including a zero time limit), in
both generations of the code. -/
theorem claim_C9 (o : Options) (c : ExitStatusControl) (env : ControlEnv)
    (s : StdExitStatus) (h : env.tryWait0 = .ok (some s)) :
    childRunWait o env = ([Act.tryWait], .ok (some (ExitStatus.fromStd s))) ∧
    c.run_wait env = ([Act.tryWait], .ok (some (ExitStatus.fromStdOld s))) := by
  unfold childRunWait ExitStatusControl.run_wait
  rw [h]
  exact ⟨rfl, rfl⟩

/-- Witness for claim C9 at a concrete input: memory limit 7 and time
limit 0, with the status already collected. -/
theorem claim_C9_witness :
    childRunWait oZeroLimit envCollected =
      ([Act.tryWait], .ok (some (ExitStatus.fromStd sOk))) ∧
    cZeroLimit.run_wait envCollected =
      ([Act.tryWait], .ok (some (ExitStatus.fromStdOld sOk))) :=
  claim_C9 oZeroLimit cZeroLimit envCollected sOk rfl

/-! ## Claim C1: deadline expiry and the result of `wait` -/

theorem waitCore_timeout {h : SharedHandle} {env : SharedWaitEnv}
    (htl : h.time_limit.isSome = true)
    (hsp : env.waiter.spawn = .ok ())
    (hto : env.waiter.timedOut = true) :
    h.waitCore env = ([Act.spawnWaiter], .ok none) := by
  obtain ⟨t, ht⟩ := Option.isSome_iff_exists.mp htl
  unfold SharedHandle.waitCore run_with_time_limit
  simp [ht, hsp, hto, transposeR]

theorem sharedWait_timeout {h : SharedHandle} {env : SharedWaitEnv}
    (htl : h.time_limit.isSome = true)
    (hsp : env.waiter.spawn = .ok ())
    (hto : env.waiter.timedOut = true)
    (hml : h.memory_limit = none ∨ env.setLimit = .ok ()) :
    (h.wait env).snd = .ok none := by
  unfold SharedHandle.wait
  cases hm : h.memory_limit with
  | none => simp [waitCore_timeout htl hsp hto]
  | some l =>
    rcases hml with hml | hml
    · rw [hm] at hml
      cases hml
    · simp [hml, waitCore_timeout htl hsp hto]

/-- Claim C1 (corrected): when the configured time limit elapses before the
bounded wait completes (the initial probe found nothing, the worker
spawned, the deadline expired), the primary wait result is `Ok(None)` —
the deadline expiry itself is never turned into an `Err` — and `wait()`
returns `Ok(None)` except in one case: `strict_errors` and
`terminate_for_timeout` are both set and the post-timeout kill/reap
cleanup fails, in which case that cleanup error (not the timeout) is
returned. -/
theorem claim_C1 (b : Buffer) (env : ControlEnv)
    (htl : b.options.time_limit.isSome = true)
    (hto : env.shared.waiter.timedOut = true)
    (hsp : env.shared.waiter.spawn = .ok ())
    (htw : env.tryWait0 = .ok none ∨ ∃ e, env.tryWait0 = .err e)
    (hml : b.options.memory_limit = none ∨ env.shared.setLimit = .ok ()) :
    (childRunWait b.options env).snd = .ok none ∧
    ((Buffer.wait b env).snd = .ok none ∨
      (b.strict_errors = true ∧ b.terminate_for_timeout = true ∧
        ∃ e, (killAndReap env).snd = .err e ∧
          (Buffer.wait b env).snd = .err e)) := by
  have hw : (b.options.handle.wait env.shared).snd = .ok none :=
    sharedWait_timeout htl hsp hto hml
  have hp : (childRunWait b.options env).snd = .ok none := by
    unfold childRunWait
    rcases htw with h0 | ⟨e, h0⟩ <;> rw [h0] <;> simp [hw]
  refine ⟨hp, ?_⟩
  unfold Buffer.wait
  rw [hp]
  cases hterm : b.terminate_for_timeout with
  | false => left; simp [Outcome.isOkSome]
  | true =>
    cases hstrict : b.strict_errors with
    | false => left; simp [Outcome.isOkSome, Outcome.isOk]
    | true =>
      cases hkr : (killAndReap env).snd with
      | err e =>
        right
        exact ⟨rfl, rfl, e, rfl, by simp [hkr, Outcome.isOkSome, Outcome.isOk]⟩
      | ok u => left; simp [hkr, Outcome.isOkSome, Outcome.isOk]

/-- Witness for claim C1: a timed-out session without `strict_errors`
yields `Ok(None)` from both the primary wait and `wait()`. -/
theorem claim_C1_witness :
    (childRunWait bPlainTimeout.options envTimeout).snd = .ok none ∧
    (Buffer.wait bPlainTimeout envTimeout).snd = .ok none := by
  have h := claim_C1 bPlainTimeout envTimeout rfl rfl rfl (Or.inl rfl)
    (Or.inl rfl)
  refine ⟨h.1, ?_⟩
  rcases h.2 with h2 | ⟨hs, _⟩
  · exact h2
  · exact absurd hs (by decide)

/-- Counterexample to claim C1 as stated: a session whose time limit
elapses (the primary result is `Ok(None)`) but whose `wait()` returns an
`Err` — with `strict_errors` and `terminate_for_timeout` set, the failed
post-timeout kill (error 3) replaces the `Ok(None)` result. -/
theorem claim_C1_counterexample :
    bStrictTerm.options.time_limit = some 1000 ∧
    envTimeoutKillFail.shared.waiter.timedOut = true ∧
    (childRunWait bStrictTerm.options envTimeoutKillFail).snd = .ok none ∧
    (Buffer.wait bStrictTerm envTimeoutKillFail).snd = .err ⟨3⟩ := by
  exact ⟨rfl, rfl, rfl, rfl⟩

/-! ## Claim C2: when the kill-and-reap step runs -/

theorem killAndReap_has_kill (env : ControlEnv) :
    Act.kill ∈ (killAndReap env).fst := by
  rcases killAndReap_shape env with h | h <;> rw [h] <;> simp

/-- Claim C2 (corrected): in both generations of `wait()`, a kill is sent
exactly when termination-on-timeout was requested and the primary wait
result is not a completed exit status — that is, on a timeout (`Ok(None)`)
or on a primary error, not only on a timeout.  In particular no kill is
ever sent when the primary result is `Ok(Some(_))`; the guard on the
primary result is the only re-check performed before killing. -/
theorem claim_C2 (b : Buffer) (c : ExitStatusControl) (env : ControlEnv) :
    (Act.kill ∈ (Buffer.wait b env).fst ↔
      b.terminate_for_timeout = true ∧
      ((childRunWait b.options env).snd = .ok none ∨
        ∃ e, (childRunWait b.options env).snd = .err e)) ∧
    (Act.kill ∈ (c.wait env).fst ↔
      c.terminate_for_timeout = true ∧
      ((c.run_wait env).snd = .ok none ∨
        ∃ e, (c.run_wait env).snd = .err e)) := by
  have hnk : Act.kill ∉ (childRunWait b.options env).fst := childRunWait_no_kill
  have hnko : Act.kill ∉ (c.run_wait env).fst := oldRunWait_no_kill
  constructor
  · cases hr : (childRunWait b.options env).snd with
    | panicked => simp [Buffer.wait, hr, hnk, Outcome.isOkSome, Outcome.isOk]
    | ok oo =>
      cases oo with
      | some s => simp [Buffer.wait, hr, hnk, Outcome.isOkSome, Outcome.isOk]
      | none =>
        cases hterm : b.terminate_for_timeout with
        | false => simp [Buffer.wait, hr, hterm, hnk, Outcome.isOkSome, Outcome.isOk]
        | true => simp [Buffer.wait, hr, hterm, hnk, killAndReap_has_kill, Outcome.isOkSome, Outcome.isOk]
    | err e =>
      cases hterm : b.terminate_for_timeout with
      | false => simp [Buffer.wait, hr, hterm, hnk, Outcome.isOkSome, Outcome.isOk]
      | true => simp [Buffer.wait, hr, hterm, hnk, killAndReap_has_kill, Outcome.isOkSome, Outcome.isOk]
  · have hks : Act.kill ∈ (c.wait env).fst ↔
        Act.kill ∈ (c.killStage env).fst := by
      unfold ExitStatusControl.wait
      by_cases hk : (c.killStage env).snd.isOk = true
      · rw [if_pos hk]
        simp
      · rw [if_neg hk]
    rw [hks]
    cases hr : (c.run_wait env).snd with
    | panicked => simp [ExitStatusControl.killStage, hr, hnko, Outcome.isOkSome, Outcome.isOk]
    | ok oo =>
      cases oo with
      | some s => simp [ExitStatusControl.killStage, hr, hnko, Outcome.isOkSome, Outcome.isOk]
      | none =>
        cases hterm : c.terminate_for_timeout with
        | false => simp [ExitStatusControl.killStage, hr, hterm, hnko, Outcome.isOkSome, Outcome.isOk]
        | true =>
          simp [ExitStatusControl.killStage, hr, hterm, hnko,
            killAndReap_has_kill, Outcome.isOkSome, Outcome.isOk]
    | err e =>
      cases hterm : c.terminate_for_timeout with
      | false => simp [ExitStatusControl.killStage, hr, hterm, hnko, Outcome.isOkSome, Outcome.isOk]
      | true =>
        simp [ExitStatusControl.killStage, hr, hterm, hnko,
          killAndReap_has_kill, Outcome.isOkSome, Outcome.isOk]

/-- Counterexample to claim C2 as stated: with termination-on-timeout
requested, a primary wait that fails with an error (the memory-limit
syscall fails, error 9) — not a timeout — still triggers the kill step. -/
theorem claim_C2_counterexample :
    (childRunWait bTermOnly.options envLimitFail).snd = .err ⟨9⟩ ∧
    (childRunWait bTermOnly.options envLimitFail).snd ≠ .ok none ∧
    Act.kill ∈ (Buffer.wait bTermOnly envLimitFail).fst := by
  refine ⟨rfl, by decide, by decide⟩

/-! ## Claim C4: cleanup errors and `strict_errors` -/

theorem bufferWait_snd_panicked {b : Buffer} {env : ControlEnv}
    (hr : (childRunWait b.options env).snd = .panicked) :
    (Buffer.wait b env).snd = .panicked := by
  unfold Buffer.wait
  rw [hr]

theorem bufferWait_snd_err {b : Buffer} {env : ControlEnv} {e : IoError}
    (hr : (childRunWait b.options env).snd = .err e) :
    (Buffer.wait b env).snd = .err e := by
  unfold Buffer.wait
  rw [hr]
  cases hg : (b.terminate_for_timeout
      && !(Outcome.err e : Outcome ExitStatus).isOkSome) with
  | false => simp [hg]
  | true => simp [hg, Outcome.isOk]

theorem bufferWait_snd_ok {b : Buffer} {env : ControlEnv} {oo : Option ExitStatus}
    (hr : (childRunWait b.options env).snd = .ok oo) :
    (Buffer.wait b env).snd =
      if b.terminate_for_timeout && !(Outcome.ok oo).isOkSome then
        (if b.strict_errors then
          (match (killAndReap env).snd with
            | .err e => Outcome.err e
            | .ok _ => Outcome.ok oo)
          else .ok oo)
      else .ok oo := by
  unfold Buffer.wait
  rw [hr]
  cases hg : (b.terminate_for_timeout && !(Outcome.ok oo).isOkSome) with
  | false => simp [hg]
  | true =>
    cases hs : b.strict_errors with
    | false => simp [hg, hs]
    | true => simp [hg, hs, Outcome.isOk]

theorem killStage_snd_panicked {c : ExitStatusControl} {env : ControlEnv}
    (hr : (c.run_wait env).snd = .panicked) :
    (c.killStage env).snd = .panicked := by
  unfold ExitStatusControl.killStage
  rw [hr]

theorem killStage_snd_err {c : ExitStatusControl} {env : ControlEnv} {e : IoError}
    (hr : (c.run_wait env).snd = .err e) :
    (c.killStage env).snd = .err e := by
  unfold ExitStatusControl.killStage
  rw [hr]
  cases hg : (c.terminate_for_timeout
      && !(Outcome.err e : Outcome ExitStatus).isOkSome) with
  | false => simp [hg]
  | true => simp [hg, Outcome.isOk]

theorem killStage_snd_ok {c : ExitStatusControl} {env : ControlEnv}
    {oo : Option ExitStatus} (hr : (c.run_wait env).snd = .ok oo) :
    (c.killStage env).snd =
      if c.terminate_for_timeout && !(Outcome.ok oo).isOkSome then
        (if c.strict_errors then
          (match (killAndReap env).snd with
            | .err e => Outcome.err e
            | .ok _ => Outcome.ok oo)
          else .ok oo)
      else .ok oo := by
  unfold ExitStatusControl.killStage
  rw [hr]
  cases hg : (c.terminate_for_timeout && !(Outcome.ok oo).isOkSome) with
  | false => simp [hg]
  | true =>
    cases hs : c.strict_errors with
    | false => simp [hg, hs]
    | true => simp [hg, hs, Outcome.isOk]

theorem bufferWait_snd_nostrict {b : Buffer} {env : ControlEnv}
    (hs : b.strict_errors = false) :
    (Buffer.wait b env).snd = (childRunWait b.options env).snd := by
  cases hr : (childRunWait b.options env).snd with
  | panicked => exact bufferWait_snd_panicked hr
  | err e => exact bufferWait_snd_err hr
  | ok oo => rw [bufferWait_snd_ok hr, hs]; split <;> simp

theorem killStage_snd_nostrict {c : ExitStatusControl} {env : ControlEnv}
    (hs : c.strict_errors = false) :
    (c.killStage env).snd = (c.run_wait env).snd := by
  cases hr : (c.run_wait env).snd with
  | panicked => exact killStage_snd_panicked hr
  | err e => exact killStage_snd_err hr
  | ok oo => rw [killStage_snd_ok hr, hs]; split <;> simp

theorem bufferWait_snd_not_ok {b : Buffer} {env : ControlEnv}
    (hno : (childRunWait b.options env).snd.isOk = false) :
    (Buffer.wait b env).snd = (childRunWait b.options env).snd := by
  cases hr : (childRunWait b.options env).snd with
  | panicked => exact bufferWait_snd_panicked hr
  | err e => exact bufferWait_snd_err hr
  | ok oo => rw [hr] at hno; simp [Outcome.isOk] at hno

theorem killStage_snd_not_ok {c : ExitStatusControl} {env : ControlEnv}
    (hno : (c.run_wait env).snd.isOk = false) :
    (c.killStage env).snd = (c.run_wait env).snd := by
  cases hr : (c.run_wait env).snd with
  | panicked => exact killStage_snd_panicked hr
  | err e => exact killStage_snd_err hr
  | ok oo => rw [hr] at hno; simp [Outcome.isOk] at hno

theorem oldWait_snd_not_ok {c : ExitStatusControl} {env : ControlEnv}
    (hno : (c.run_wait env).snd.isOk = false) :
    (c.wait env).snd = (c.run_wait env).snd := by
  have h1 := killStage_snd_not_ok hno
  have h2 : (c.killStage env).snd.isOk = false := by rw [h1]; exact hno
  unfold ExitStatusControl.wait
  rw [if_neg (by simp [h2])]
  exact h1

theorem bufferWait_snd_changed {b : Buffer} {env : ControlEnv}
    (hne : (Buffer.wait b env).snd ≠ (childRunWait b.options env).snd) :
    b.strict_errors = true ∧ (childRunWait b.options env).snd.isOk = true ∧
      ∃ e, (killAndReap env).snd = .err e ∧
        (Buffer.wait b env).snd = .err e := by
  cases hs : b.strict_errors with
  | false => exact absurd (bufferWait_snd_nostrict hs) hne
  | true =>
    cases hok : (childRunWait b.options env).snd.isOk with
    | false => exact absurd (bufferWait_snd_not_ok hok) hne
    | true =>
      refine ⟨rfl, rfl, ?_⟩
      obtain ⟨oo, hr⟩ : ∃ oo, (childRunWait b.options env).snd = .ok oo := by
        cases hr2 : (childRunWait b.options env).snd with
        | ok oo => exact ⟨oo, rfl⟩
        | err e => rw [hr2] at hok; simp [Outcome.isOk] at hok
        | panicked => rw [hr2] at hok; simp [Outcome.isOk] at hok
      have hchar := bufferWait_snd_ok hr
      rw [hr] at hne
      rw [hs] at hchar
      cases hg : (b.terminate_for_timeout && !(Outcome.ok oo).isOkSome) with
      | false =>
        rw [hg] at hchar
        simp at hchar
        exact absurd hchar hne
      | true =>
        rw [hg] at hchar
        simp only [if_true, if_pos] at hchar
        cases hkr : (killAndReap env).snd with
        | ok u =>
          rw [hkr] at hchar
          simp at hchar
          exact absurd hchar hne
        | err e2 =>
          rw [hkr] at hchar
          simp at hchar
          exact ⟨e2, rfl, hchar⟩

theorem killStage_snd_changed {c : ExitStatusControl} {env : ControlEnv}
    (hne : (c.killStage env).snd ≠ (c.run_wait env).snd) :
    c.strict_errors = true ∧ (c.run_wait env).snd.isOk = true ∧
      ∃ e, (killAndReap env).snd = .err e ∧
        (c.killStage env).snd = .err e := by
  cases hs : c.strict_errors with
  | false => exact absurd (killStage_snd_nostrict hs) hne
  | true =>
    cases hok : (c.run_wait env).snd.isOk with
    | false => exact absurd (killStage_snd_not_ok hok) hne
    | true =>
      refine ⟨rfl, rfl, ?_⟩
      obtain ⟨oo, hr⟩ : ∃ oo, (c.run_wait env).snd = .ok oo := by
        cases hr2 : (c.run_wait env).snd with
        | ok oo => exact ⟨oo, rfl⟩
        | err e => rw [hr2] at hok; simp [Outcome.isOk] at hok
        | panicked => rw [hr2] at hok; simp [Outcome.isOk] at hok
      have hchar := killStage_snd_ok hr
      rw [hr] at hne
      rw [hs] at hchar
      cases hg : (c.terminate_for_timeout && !(Outcome.ok oo).isOkSome) with
      | false =>
        rw [hg] at hchar
        simp at hchar
        exact absurd hchar hne
      | true =>
        rw [hg] at hchar
        simp only [if_true, if_pos] at hchar
        cases hkr : (killAndReap env).snd with
        | ok u =>
          rw [hkr] at hchar
          simp at hchar
          exact absurd hchar hne
        | err e2 =>
          rw [hkr] at hchar
          simp at hchar
          exact ⟨e2, rfl, hchar⟩

/-- Claim C4 (confirmed): in both generations of `wait()`, errors of the
post-timeout termination and of its final consuming reap are suppressed by
default (without `strict_errors` the result equals the primary result);
when `strict_errors` is set, such a cleanup error replaces only an
otherwise-`Ok` primary result; and a cleanup error never replaces a
primary result that is already failing. -/
theorem claim_C4 (b : Buffer) (c : ExitStatusControl) (env : ControlEnv) :
    (b.strict_errors = false →
      (Buffer.wait b env).snd = (childRunWait b.options env).snd) ∧
    ((childRunWait b.options env).snd.isOk = false →
      (Buffer.wait b env).snd = (childRunWait b.options env).snd) ∧
    ((Buffer.wait b env).snd ≠ (childRunWait b.options env).snd →
      b.strict_errors = true ∧ (childRunWait b.options env).snd.isOk = true ∧
      ∃ e, (killAndReap env).snd = .err e ∧
        (Buffer.wait b env).snd = .err e) ∧
    (c.strict_errors = false →
      (c.killStage env).snd = (c.run_wait env).snd) ∧
    ((c.run_wait env).snd.isOk = false →
      (c.wait env).snd = (c.run_wait env).snd) ∧
    ((c.killStage env).snd ≠ (c.run_wait env).snd →
      c.strict_errors = true ∧ (c.run_wait env).snd.isOk = true ∧
      ∃ e, (killAndReap env).snd = .err e ∧
        (c.killStage env).snd = .err e) :=
  ⟨fun hs => bufferWait_snd_nostrict hs,
   fun hno => bufferWait_snd_not_ok hno,
   fun hne => bufferWait_snd_changed hne,
   fun hs => killStage_snd_nostrict hs,
   fun hno => oldWait_snd_not_ok hno,
   fun hne => killStage_snd_changed hne⟩

/-- Witness for claim C4: without `strict_errors`, the cleanup of a failed
primary wait leaves the primary error in place. -/
theorem claim_C4_witness :
    (Buffer.wait bTermOnly envLimitFail).snd =
      (childRunWait bTermOnly.options envLimitFail).snd :=
  (claim_C4 bTermOnly cOld envLimitFail).1 rfl

/-! ## Claim C5: the final non-blocking status check -/

/-- Claim C5 (corrected): the final non-blocking `try_wait` of
`src/control.rs` runs exactly when the result of the primary wait and
termination stage is `Ok` — a primary error skips it — and the
`src/control/mod.rs` `wait` performs no status check at all after its
primary stage (the actions following the primary stage contain no
`try_wait`). -/
theorem claim_C5 (b : Buffer) (c : ExitStatusControl) (env : ControlEnv) :
    (c.wait env).fst =
      (c.killStage env).fst ++
        (if (c.killStage env).snd.isOk then [Act.tryWait] else []) ∧
    ((Buffer.wait b env).fst.drop
        ((childRunWait b.options env).fst.length + 1)).all
      (fun a => !(a == Act.tryWait)) = true := by
  constructor
  · unfold ExitStatusControl.wait
    by_cases hk : (c.killStage env).snd.isOk = true
    · rw [if_pos hk, if_pos hk]
    · rw [if_neg hk, if_neg hk]
      simp
  · obtain ⟨tail, htr, htail⟩ := bufferWait_shape b env
    rw [htr]
    rw [show Act.takeStdin :: (childRunWait b.options env).fst ++ tail =
        (Act.takeStdin :: (childRunWait b.options env).fst) ++ tail from rfl]
    rw [show (childRunWait b.options env).fst.length + 1 =
        (Act.takeStdin :: (childRunWait b.options env).fst).length from by simp]
    rw [List.drop_left]
    rcases htail with h | h | h <;> subst h <;> decide

/-- Counterexample to claim C5 as stated: a timed-out `Buffer::wait`
session performs no status check after the primary wait (its whole trace
is the stdin close, the initial probe and the worker spawn), and an
`ExitStatusControl::wait` whose primary wait fails performs no final
`try_wait` either (its trace ends with the failed memory-limit call). -/
theorem claim_C5_counterexample :
    Buffer.wait bPlainTimeout envTimeout =
      ([Act.takeStdin, Act.tryWait, Act.spawnWaiter], .ok none) ∧
    (Buffer.wait bPlainTimeout envTimeout).fst.count Act.tryWait = 1 ∧
    cOld.wait envLimitFail =
      ([Act.takeStdin, Act.tryWait, Act.setMemoryLimit 5], .err ⟨9⟩) ∧
    (cOld.wait envLimitFail).fst.getLast? ≠ some Act.tryWait := by
  refine ⟨rfl, by decide, rfl, by decide⟩

/-! ## Claim C3: peek, terminate, reap ordering -/

theorem pre_ok_buffer {b : Buffer} {env : ControlEnv} :
    ∀ a ∈ Act.takeStdin :: (childRunWait b.options env).fst,
      (!(a == Act.kill)) = true ∧ (!(a == Act.reap)) = true := by
  intro a ha
  rcases List.mem_cons.mp ha with rfl | ha
  · exact ⟨rfl, rfl⟩
  · rcases mem_childRunWait ha with h | h | h | ⟨l, h⟩ <;> subst h <;>
      exact ⟨rfl, rfl⟩

theorem pre_ok_old {c : ExitStatusControl} {env : ControlEnv} :
    ∀ a ∈ Act.takeStdin :: (c.run_wait env).fst,
      (!(a == Act.kill)) = true ∧ (!(a == Act.reap)) = true := by
  intro a ha
  rcases List.mem_cons.mp ha with rfl | ha
  · exact ⟨rfl, rfl⟩
  · rcases mem_oldRunWait ha with h | h | h | ⟨l, h⟩ <;> subst h <;>
      exact ⟨rfl, rfl⟩

theorem peekBeforeKill_of_shape {pre tail : List Act}
    (hpre : ∀ a ∈ pre, (!(a == Act.kill)) = true)
    (htail : tail = [] ∨ tail = [Act.kill] ∨ tail = [Act.kill, Act.reap] ∨
      tail = [Act.tryWait] ∨ tail = [Act.kill, Act.tryWait] ∨
      tail = [Act.kill, Act.reap, Act.tryWait]) :
    peekBeforeKill (pre ++ tail) = true := by
  unfold peekBeforeKill
  rw [dropWhile_append_all hpre]
  rcases htail with h | h | h | h | h | h <;> subst h <;> decide

theorem killBeforeReap_of_shape {pre tail : List Act}
    (hpre : ∀ a ∈ pre, (!(a == Act.kill)) = true ∧ (!(a == Act.reap)) = true)
    (htail : tail = [] ∨ tail = [Act.kill] ∨ tail = [Act.kill, Act.reap] ∨
      tail = [Act.tryWait] ∨ tail = [Act.kill, Act.tryWait] ∨
      tail = [Act.kill, Act.reap, Act.tryWait]) :
    killBeforeReap (pre ++ tail) = true := by
  unfold killBeforeReap
  rw [takeWhile_append_all (fun a ha => (hpre a ha).1), List.all_append]
  rw [Bool.and_eq_true]
  refine ⟨List.all_eq_true.mpr (fun a ha => (hpre a ha).2), ?_⟩
  rcases htail with h | h | h | h | h | h <;> subst h <;> decide

theorem mem_bufferWait {b : Buffer} {env : ControlEnv} {a : Act}
    (ha : a ∈ (Buffer.wait b env).fst) :
    a = Act.takeStdin ∨ a = Act.tryWait ∨ a = Act.spawnWaiter ∨
      a = Act.waitid waitidFlags ∨ (∃ l, a = Act.setMemoryLimit l) ∨
      a = Act.kill ∨ a = Act.reap := by
  obtain ⟨tail, htr, htail⟩ := bufferWait_shape b env
  rw [htr] at ha
  rcases List.mem_cons.mp ha with rfl | ha
  · tauto
  · rcases List.mem_append.mp ha with ha | ha
    · have h1 := mem_childRunWait ha
      tauto
    · rcases htail with h | h | h <;> subst h <;> simp at ha <;> tauto

theorem mem_oldWait {c : ExitStatusControl} {env : ControlEnv} {a : Act}
    (ha : a ∈ (c.wait env).fst) :
    a = Act.takeStdin ∨ a = Act.tryWait ∨ a = Act.spawnWaiter ∨
      a = Act.waitid waitidFlags ∨ (∃ l, a = Act.setMemoryLimit l) ∨
      a = Act.kill ∨ a = Act.reap := by
  obtain ⟨tail, htr, htail⟩ := oldWait_shape c env
  rw [htr] at ha
  rcases List.mem_cons.mp ha with rfl | ha
  · tauto
  · rcases List.mem_append.mp ha with ha | ha
    · have h1 := mem_oldRunWait ha
      tauto
    · rcases htail with h | h | h | h | h | h <;> subst h <;> simp at ha <;>
        tauto

theorem waitidNoReap_of_mem {tr : List Act}
    (h : ∀ a ∈ tr, a = Act.takeStdin ∨ a = Act.tryWait ∨ a = Act.spawnWaiter ∨
      a = Act.waitid waitidFlags ∨ (∃ l, a = Act.setMemoryLimit l) ∨
      a = Act.kill ∨ a = Act.reap) :
    waitidNoReap tr = true := by
  unfold waitidNoReap
  rw [List.all_eq_true]
  intro a ha
  rcases h a ha with h1 | h1 | h1 | h1 | ⟨l, h1⟩ | h1 | h1 <;> subst h1 <;> rfl

/-- Claim C3 (confirmed): in every execution of `wait()` (both
generations), every `waitid` call carries the no-reap flag `WNOWAIT`; no
`waitid` status peek occurs at or after the termination (`kill`); no
consuming reap occurs before the termination; and the bounded
`SharedHandle::wait` performs only non-consuming actions (no `try_wait`,
no reap, no kill) — the peek-terminate-reap order is never violated. -/
theorem claim_C3 (b : Buffer) (c : ExitStatusControl) (env : ControlEnv)
    (h : SharedHandle) (senv : SharedWaitEnv) :
    peekBeforeKill (Buffer.wait b env).fst = true ∧
    killBeforeReap (Buffer.wait b env).fst = true ∧
    waitidNoReap (Buffer.wait b env).fst = true ∧
    peekBeforeKill (c.wait env).fst = true ∧
    killBeforeReap (c.wait env).fst = true ∧
    waitidNoReap (c.wait env).fst = true ∧
    (h.wait senv).fst.all nonConsumingAct = true := by
  obtain ⟨tail, htr, htail⟩ := bufferWait_shape b env
  obtain ⟨tail2, htr2, htail2⟩ := oldWait_shape c env
  have htail' : tail = [] ∨ tail = [Act.kill] ∨ tail = [Act.kill, Act.reap] ∨
      tail = [Act.tryWait] ∨ tail = [Act.kill, Act.tryWait] ∨
      tail = [Act.kill, Act.reap, Act.tryWait] := by
    tauto
  refine ⟨?_, ?_, ?_, ?_, ?_, ?_, ?_⟩
  · rw [htr, show Act.takeStdin :: (childRunWait b.options env).fst ++ tail =
      (Act.takeStdin :: (childRunWait b.options env).fst) ++ tail from rfl]
    exact peekBeforeKill_of_shape (fun a ha => (pre_ok_buffer a ha).1) htail'
  · rw [htr, show Act.takeStdin :: (childRunWait b.options env).fst ++ tail =
      (Act.takeStdin :: (childRunWait b.options env).fst) ++ tail from rfl]
    exact killBeforeReap_of_shape pre_ok_buffer htail'
  · exact waitidNoReap_of_mem (fun a ha => mem_bufferWait ha)
  · rw [htr2, show Act.takeStdin :: (c.run_wait env).fst ++ tail2 =
      (Act.takeStdin :: (c.run_wait env).fst) ++ tail2 from rfl]
    exact peekBeforeKill_of_shape (fun a ha => (pre_ok_old a ha).1) htail2
  · rw [htr2, show Act.takeStdin :: (c.run_wait env).fst ++ tail2 =
      (Act.takeStdin :: (c.run_wait env).fst) ++ tail2 from rfl]
    exact killBeforeReap_of_shape pre_ok_old htail2
  · exact waitidNoReap_of_mem (fun a ha => mem_oldWait ha)
  · rw [List.all_eq_true]
    intro a ha
    rcases mem_sharedWait ha with h1 | h1 | ⟨l, h1⟩ <;> subst h1 <;> rfl

/-! ## The read2 window invariant (claim C7) -/

theorem getE_setEofTrue_self {e : Bool × Bool} {i : Nat} (hi : i < 2) :
    getE (setEofTrue e i) i = true := by
  interval_cases i <;> simp [getE, setEofTrue]

theorem getE_setEofTrue_other {e : Bool × Bool} {i j : Nat} (hij : j ≠ i)
    (hi : i < 2) (hj : j < 2) :
    getE (setEofTrue e i) j = getE e j := by
  interval_cases i <;> interval_cases j <;> simp_all [getE, setEofTrue]

theorem xor_one_ne {i : Nat} (hi : i < 2) : i ^^^ 1 ≠ i := by
  interval_cases i <;> decide

theorem xor_one_lt {i : Nat} (hi : i < 2) : i ^^^ 1 < 2 := by
  interval_cases i <;> decide

theorem other_eq_xor {i j : Nat} (hi : i < 2) (hj : j < 2) (hij : j ≠ i) :
    j = i ^^^ 1 := by
  interval_cases i <;> interval_cases j <;> simp_all

theorem handleIndex_inv {n : Nat} {pipes : Pipe × Pipe} {revents : Bool × Bool}
    {evs : ReadEvent × ReadEvent} {st st' : R2State} {i : Nat}
    (hn : n ≤ 2) (hinv : windowInv n st) (hi : i < n)
    (heof : getEof st i = false)
    (h : handleIndex pipes revents evs st i = .ok st') :
    windowInv n st' ∧ (∀ j, j < n → j ≠ i → getEof st' j = getEof st j) := by
  obtain ⟨h1, h2⟩ := hinv
  have hi2 : i < 2 := lt_of_lt_of_le hi hn
  unfold handleIndex at h
  by_cases hrv : getR revents i = true
  case neg =>
    rw [if_neg hrv] at h
    cases h
    exact ⟨⟨h1, h2⟩, fun j _ _ => rfl⟩
  case pos =>
    rw [if_pos hrv] at h
    cases hnr : next_result (getP pipes i) (getBuf st i) (getEv evs i) with
    | err e => rw [hnr] at h; cases h
    | ok pr =>
      obtain ⟨cont, buf2⟩ := pr
      rw [hnr] at h
      cases cont with
      | true =>
        have h' : IoResult.ok (setBuf st i buf2) = IoResult.ok st' := h
        cases h'
        exact ⟨⟨h1, h2⟩, fun j _ _ => rfl⟩
      | false =>
        have h' : IoResult.ok
            { setBuf st i buf2 with
              start := i ^^^ 1
              length := (setBuf st i buf2).length - 1
              eof := setEofTrue (setBuf st i buf2).eof i } =
            IoResult.ok st' := h
        cases h'
        have hwin := (h2 i hi).mp heof
        obtain ⟨hw1, hw2⟩ := hwin
        have hlenpos : st.length ≠ 0 := by omega
        have hbound := h1 hlenpos
        have hpres : ∀ j, j < n → j ≠ i →
            getE (setEofTrue (setBuf st i buf2).eof i) j = getEof st j :=
          fun j hj hji =>
            getE_setEofTrue_other hji hi2 (lt_of_lt_of_le hj hn)
        have hl : st.length = 1 ∨ st.length = 2 := by omega
        rcases hl with hl | hl
        · -- the window was the singleton at index i = st.start
          have hieq : i = st.start := by omega
          refine ⟨⟨?_, ?_⟩, hpres⟩
          · intro hne
            exfalso
            exact hne (by simp [setBuf, hl])
          · intro j hj
            have hj2 : j < 2 := lt_of_lt_of_le hj hn
            have hrhs : ¬ inWindow
                { setBuf st i buf2 with
                  start := i ^^^ 1
                  length := (setBuf st i buf2).length - 1
                  eof := setEofTrue (setBuf st i buf2).eof i } j := by
              simp only [inWindow, setBuf, hl]
              omega
            constructor
            · intro hf
              exfalso
              have hf' : getE (setEofTrue (setBuf st i buf2).eof i) j = false := hf
              by_cases hji : j = i
              · rw [hji, getE_setEofTrue_self hi2] at hf'
                cases hf'
              · rw [hpres j hj hji] at hf'
                obtain ⟨hx1, hx2⟩ := (h2 j hj).mp hf'
                omega
            · intro hw
              exact absurd hw hrhs
        · -- the window was the full pair, so st.start = 0 and n = 2
          have hstart : st.start = 0 := by omega
          have hn2 : n = 2 := by omega
          refine ⟨⟨?_, ?_⟩, hpres⟩
          · intro _
            have hx := xor_one_lt hi2
            simp only [setBuf, hl]
            omega
          · intro j hj
            have hj2 : j < 2 := lt_of_lt_of_le hj hn
            have hwin' : inWindow
                { setBuf st i buf2 with
                  start := i ^^^ 1
                  length := (setBuf st i buf2).length - 1
                  eof := setEofTrue (setBuf st i buf2).eof i } j ↔ j = i ^^^ 1 := by
              simp only [inWindow, setBuf, hl]
              omega
            rw [hwin']
            constructor
            · intro hf
              have hf' : getE (setEofTrue (setBuf st i buf2).eof i) j = false := hf
              by_cases hji : j = i
              · exfalso
                rw [hji, getE_setEofTrue_self hi2] at hf'
                cases hf'
              · exact other_eq_xor hi2 hj2 hji
            · intro hw
              show getE (setEofTrue (setBuf st i buf2).eof i) j = false
              have hji : j ≠ i := by rw [hw]; exact xor_one_ne hi2
              rw [hpres j hj hji]
              exact (h2 j hj).mpr (by constructor <;> omega)

theorem runRound_inv {n : Nat} {pipes : Pipe × Pipe} {st st' : R2State}
    {r : Round} (hn : n ≤ 2) (hinv : windowInv n st)
    (h : runRound pipes st r = .ok st') : windowInv n st' := by
  unfold runRound at h
  cases hp : r.poll with
  | interrupted => rw [hp] at h; cases h; exact hinv
  | failed e => rw [hp] at h; cases h
  | ready revents =>
    rw [hp] at h
    have hl3 : st.length = 0 ∨ st.length = 1 ∨ st.length = 2 := by
      by_cases h0 : st.length = 0
      · exact Or.inl h0
      · have := hinv.1 h0
        omega
    rcases hl3 with hl | hl | hl
    · rw [hl] at h
      rw [show List.range' st.start 0 = [] from rfl] at h
      unfold foldIndices at h
      cases h
      exact hinv
    · rw [hl] at h
      rw [show List.range' st.start 1 = [st.start] from rfl] at h
      have hs : st.start < n := by
        have := hinv.1 (by omega)
        omega
      have heof : getEof st st.start = false :=
        (hinv.2 st.start hs).mpr (by constructor <;> omega)
      unfold foldIndices at h
      cases hh : handleIndex pipes revents r.events st st.start with
      | err e => rw [hh] at h; cases h
      | ok st2 =>
        rw [hh] at h
        unfold foldIndices at h
        cases h
        exact (handleIndex_inv hn hinv hs heof hh).1
    · rw [hl] at h
      have hb := hinv.1 (by omega)
      have hstart : st.start = 0 := by omega
      have hn2 : n = 2 := by omega
      rw [hstart] at h
      rw [show List.range' 0 2 = [0, 1] from rfl] at h
      have heof0 : getEof st 0 = false :=
        (hinv.2 0 (by omega)).mpr (by constructor <;> omega)
      have heof1 : getEof st 1 = false :=
        (hinv.2 1 (by omega)).mpr (by constructor <;> omega)
      unfold foldIndices at h
      cases hh1 : handleIndex pipes revents r.events st 0 with
      | err e => rw [hh1] at h; cases h
      | ok st2 =>
        rw [hh1] at h
        obtain ⟨hinv2, hpres2⟩ :=
          handleIndex_inv hn hinv (by omega) heof0 hh1
        have heof1' : getEof st2 1 = false := by
          rw [hpres2 1 (by omega) (by omega)]
          exact heof1
        unfold foldIndices at h
        cases hh2 : handleIndex pipes revents r.events st2 1 with
        | err e => rw [hh2] at h; cases h
        | ok st3 =>
          rw [hh2] at h
          unfold foldIndices at h
          cases h
          exact (handleIndex_inv hn hinv2 (by omega) heof1' hh2).1

theorem read2Loop_inv {n : Nat} {pipes : Pipe × Pipe} :
    ∀ {rounds : List Round} {st stF : R2State}, n ≤ 2 → windowInv n st →
    read2Loop pipes st rounds = .ok (some stF) →
    windowInv n stF ∧ stF.length = 0 := by
  intro rounds
  induction rounds with
  | nil =>
    intro st stF hn hinv h
    unfold read2Loop at h
    by_cases h0 : st.length = 0
    · rw [if_pos h0] at h
      cases h
      exact ⟨hinv, h0⟩
    · rw [if_neg h0] at h
      cases h
  | cons r rs ih =>
    intro st stF hn hinv h
    unfold read2Loop at h
    by_cases h0 : st.length = 0
    · rw [if_pos h0] at h
      cases h
      exact ⟨hinv, h0⟩
    · rw [if_neg h0] at h
      cases hr : runRound pipes st r with
      | err e => rw [hr] at h; cases h
      | ok st2 =>
        rw [hr] at h
        exact ih hn (runRound_inv hn hinv hr) h

theorem windowInv_length_zero_eof {n : Nat} {st : R2State}
    (hinv : windowInv n st) (h0 : st.length = 0) :
    ∀ i, i < n → getEof st i = true := by
  intro i hi
  cases he : getEof st i with
  | true => rfl
  | false =>
    obtain ⟨hw1, hw2⟩ := (hinv.2 i hi).mp he
    omega

theorem windowInv_initState (n : Nat) : windowInv n (initState n) := by
  constructor
  · intro _
    simp [initState]
  · intro i hi
    constructor
    · intro _
      refine ⟨Nat.zero_le i, ?_⟩
      simp [initState]
      omega
    · intro _
      by_cases hi0 : i = 0 <;> simp [initState, getEof, getE, hi0]

/-- Claim C7 (confirmed): the `read2` window invariant — the active window
`fds[start..start+length]` is an interval inside the present streams that
contains exactly the streams that have not yet reached end of stream —
holds initially and is preserved by every loop iteration (including the
swap removal `start = i ^ 1; length -= 1` of a finished stream), and a run
of the loop that returns exits exactly with `length = 0`, every present
stream having reached end of stream. -/
theorem claim_C7 (n : Nat) (pipes : Pipe × Pipe) (st st' stF : R2State)
    (r : Round) (rounds : List Round)
    (hn : n ≤ 2) (hinv : windowInv n st) :
    windowInv n (initState n) ∧
    (runRound pipes st r = .ok st' → windowInv n st') ∧
    (read2Loop pipes st rounds = .ok (some stF) →
      stF.length = 0 ∧ ∀ i, i < n → getEof stF i = true) := by
  refine ⟨windowInv_initState n, fun h => runRound_inv hn hinv h, fun h => ?_⟩
  obtain ⟨hiF, h0⟩ := read2Loop_inv hn hinv h
  exact ⟨h0, windowInv_length_zero_eof hiF h0⟩

/-- Witness for claim C7: a two-stream run in which each round finishes
one stream ends with an empty window and both streams at end of stream. -/
theorem claim_C7_witness :
    (⟨0, 0, ([], []), (true, true)⟩ : R2State).length = 0 ∧
    getEof ⟨0, 0, ([], []), (true, true)⟩ 0 = true ∧
    getEof ⟨0, 0, ([], []), (true, true)⟩ 1 = true := by
  have h := claim_C7 2 (pipeAll, pipeAll) (initState 2) (initState 2)
    ⟨0, 0, ([], []), (true, true)⟩ roundFinish0 [roundFinish0, roundFinish1]
    (by decide) (windowInv_initState 2)
  obtain ⟨h0, hall⟩ := h.2.2 (by decide)
  exact ⟨h0, hall 0 (by decide), hall 1 (by decide)⟩

/-! ## The filter contract (claims C6 and C10) -/

theorem next_result_benign_eof {p : Pipe} {buffer : List Nat}
    {ev : ReadEvent} {bl : Bool} (hb : ev.outcome = ReadEnd.eof)
    (hf : p.filter ev.chunk = .ok bl) :
    next_result p buffer ev =
      .ok (false, if bl ∨ ev.chunk = [] then buffer ++ ev.chunk else buffer) := by
  obtain ⟨chunk, endB⟩ := ev
  simp only at hb hf ⊢
  subst hb
  show (if (buffer ++ chunk).length ≠ buffer.length then
      match p.run_filter (buffer ++ chunk) buffer.length with
      | .err e => IoResult.err e
      | .ok buffer3 => IoResult.ok (false, buffer3)
    else IoResult.ok (false, buffer ++ chunk)) = _
  by_cases hc : chunk = []
  · subst hc
    rw [if_neg (by simp)]
    simp
  · have hlen : (buffer ++ chunk).length ≠ buffer.length := by
      simp only [List.length_append]
      have : chunk.length ≠ 0 := fun hz => hc (List.length_eq_zero.mp hz)
      omega
    rw [if_pos hlen]
    unfold Pipe.run_filter
    rw [List.drop_left, hf]
    cases bl <;> simp [List.take_left, hc]

theorem next_result_benign_wb {p : Pipe} {buffer : List Nat}
    {ev : ReadEvent} {bl : Bool} (hb : ev.outcome = ReadEnd.wouldBlock)
    (hf : p.filter ev.chunk = .ok bl) :
    next_result p buffer ev =
      .ok (true, if bl ∨ ev.chunk = [] then buffer ++ ev.chunk else buffer) := by
  obtain ⟨chunk, endB⟩ := ev
  simp only at hb hf ⊢
  subst hb
  show (if (buffer ++ chunk).length ≠ buffer.length then
      match p.run_filter (buffer ++ chunk) buffer.length with
      | .err e => IoResult.err e
      | .ok buffer3 => IoResult.ok (true, buffer3)
    else IoResult.ok (true, buffer ++ chunk)) = _
  by_cases hc : chunk = []
  · subst hc
    rw [if_neg (by simp)]
    simp
  · have hlen : (buffer ++ chunk).length ≠ buffer.length := by
      simp only [List.length_append]
      have : chunk.length ≠ 0 := fun hz => hc (List.length_eq_zero.mp hz)
      omega
    rw [if_pos hlen]
    unfold Pipe.run_filter
    rw [List.drop_left, hf]
    cases bl <;> simp [List.take_left, hc]

theorem next_result_filter_err {p : Pipe} {buffer : List Nat}
    {ev : ReadEvent} {e : IoError}
    (hb : ev.outcome = ReadEnd.eof ∨ ev.outcome = ReadEnd.wouldBlock)
    (hc : ev.chunk ≠ []) (hf : p.filter ev.chunk = .err e) :
    next_result p buffer ev = .err e := by
  obtain ⟨chunk, endB⟩ := ev
  simp only at hb hc hf ⊢
  have hlen : (buffer ++ chunk).length ≠ buffer.length := by
    simp only [List.length_append]
    have : chunk.length ≠ 0 := fun hz => hc (List.length_eq_zero.mp hz)
    omega
  rcases hb with hb | hb <;> subst hb
  · show (if (buffer ++ chunk).length ≠ buffer.length then
        match p.run_filter (buffer ++ chunk) buffer.length with
        | .err e => IoResult.err e
        | .ok buffer3 => IoResult.ok (false, buffer3)
      else IoResult.ok (false, buffer ++ chunk)) = _
    rw [if_pos hlen]
    unfold Pipe.run_filter
    rw [List.drop_left, hf]
  · show (if (buffer ++ chunk).length ≠ buffer.length then
        match p.run_filter (buffer ++ chunk) buffer.length with
        | .err e => IoResult.err e
        | .ok buffer3 => IoResult.ok (true, buffer3)
      else IoResult.ok (true, buffer ++ chunk)) = _
    rw [if_pos hlen]
    unfold Pipe.run_filter
    rw [List.drop_left, hf]

theorem runRound_single {p q : Pipe} {acc b2 : List Nat} {e2 : Bool}
    {ev : ReadEvent} :
    runRound (p, q) ⟨0, 1, (acc, b2), (false, e2)⟩
        ⟨.ready (true, false), (ev, ev)⟩ =
      match next_result p acc ev with
      | .err e => .err e
      | .ok (true, buf2) => .ok ⟨0, 1, (buf2, b2), (false, e2)⟩
      | .ok (false, buf2) => .ok ⟨1, 0, (buf2, b2), (true, e2)⟩ := by
  cases hnr : next_result p acc ev with
  | err e =>
    simp [runRound, foldIndices, handleIndex, getR, getP, getBuf, getEv,
      List.range', hnr]
  | ok pr =>
    obtain ⟨cont, buf2⟩ := pr
    cases cont <;>
      simp [runRound, foldIndices, handleIndex, getR, getP, getBuf, getEv,
        setBuf, setEofTrue, List.range', hnr]

theorem read2Loop_single {p q : Pipe} :
    ∀ (evs : List ReadEvent) (lastEv : ReadEvent) (acc b2 : List Nat)
      (e2 : Bool),
    (∀ ev ∈ evs, ev.outcome = ReadEnd.wouldBlock ∧
      ∃ bl, p.filter ev.chunk = .ok bl) →
    lastEv.outcome = ReadEnd.eof → (∃ bl, p.filter lastEv.chunk = .ok bl) →
    read2Loop (p, q) ⟨0, 1, (acc, b2), (false, e2)⟩
        (roundsOf (evs ++ [lastEv])) =
      .ok (some ⟨1, 0, (acc ++ acceptedConcat p.filter (evs ++ [lastEv]), b2),
        (true, e2)⟩) := by
  intro evs
  induction evs with
  | nil =>
    intro lastEv acc b2 e2 _ hl hlf
    obtain ⟨bl, hf⟩ := hlf
    rw [show ([] : List ReadEvent) ++ [lastEv] = [lastEv] from rfl]
    rw [show roundsOf [lastEv] =
      [⟨.ready (true, false), (lastEv, lastEv)⟩] from rfl]
    unfold read2Loop
    rw [if_neg (by simp)]
    rw [runRound_single, next_result_benign_eof hl hf]
    have hbuf : (if bl ∨ lastEv.chunk = [] then acc ++ lastEv.chunk else acc) =
        acc ++ acceptedConcat p.filter [lastEv] := by
      rw [show acceptedConcat p.filter [lastEv] =
        (if lastEv.chunk ≠ [] ∧ p.filter lastEv.chunk = IoResult.ok true then
          lastEv.chunk else []) ++ [] from rfl]
      by_cases hc : lastEv.chunk = []
      · simp [hc]
      · cases bl with
        | true => simp [hc, hf]
        | false => simp [hc, hf]
    rw [hbuf]
    rfl
  | cons ev evs ih =>
    intro lastEv acc b2 e2 hbs hl hlf
    obtain ⟨hwb, bl, hf⟩ := hbs ev (List.mem_cons_self ev evs)
    rw [show (ev :: evs) ++ [lastEv] = ev :: (evs ++ [lastEv]) from rfl]
    rw [show roundsOf (ev :: (evs ++ [lastEv])) =
      ⟨.ready (true, false), (ev, ev)⟩ :: roundsOf (evs ++ [lastEv]) from rfl]
    unfold read2Loop
    rw [if_neg (by simp)]
    rw [runRound_single, next_result_benign_wb hwb hf]
    show read2Loop (p, q)
        ⟨0, 1, ((if bl ∨ ev.chunk = [] then acc ++ ev.chunk else acc), b2),
          (false, e2)⟩ (roundsOf (evs ++ [lastEv])) = _
    rw [ih lastEv (if bl ∨ ev.chunk = [] then acc ++ ev.chunk else acc)
      b2 e2 (fun x hx => hbs x (List.mem_cons_of_mem ev hx)) hl hlf]
    have hbuf : (if bl ∨ ev.chunk = [] then acc ++ ev.chunk else acc) ++
        acceptedConcat p.filter (evs ++ [lastEv]) =
        acc ++ acceptedConcat p.filter (ev :: (evs ++ [lastEv])) := by
      rw [show acceptedConcat p.filter (ev :: (evs ++ [lastEv])) =
        (if ev.chunk ≠ [] ∧ p.filter ev.chunk = IoResult.ok true then ev.chunk
          else []) ++ acceptedConcat p.filter (evs ++ [lastEv]) from rfl]
      by_cases hc : ev.chunk = []
      · simp [hc]
      · cases bl with
        | true => simp [hc, hf, List.append_assoc]
        | false => simp [hc, hf]
    rw [hbuf]

theorem acceptedConcat_acceptAll (evs : List ReadEvent) :
    acceptedConcat (Pipe.new none).filter evs =
      ((evs.map ReadEvent.chunk).flatten) := by
  induction evs with
  | nil => rfl
  | cons ev evs ih =>
    unfold acceptedConcat
    rw [ih]
    by_cases hc : ev.chunk = []
    · simp [hc]
    · simp [hc, show (Pipe.new none).filter ev.chunk = .ok true from rfl]

/-- Claim C6 (confirmed): each time bytes are appended during the
dual-pipe read, the filter is invoked on exactly the newly appended suffix
— acceptance keeps exactly those bytes, rejection truncates exactly those
bytes while the loop continues past them, a filter error propagates out of
`next_result` — a failing round aborts the whole `read2` loop with that
error, and a completed single-stream run returns exactly the
concatenation of the filter-accepted chunks (the filter having been
applied to every nonempty chunk read). -/
theorem claim_C6 (p q : Pipe) (buf chunk : List Nat) (endB : ReadEnd)
    (e : IoError) (hne : chunk ≠ [])
    (hb : endB = ReadEnd.eof ∨ endB = ReadEnd.wouldBlock) :
    (p.filter chunk = .ok true →
      next_result p buf ⟨chunk, endB⟩ =
        .ok ((endB == ReadEnd.wouldBlock), buf ++ chunk)) ∧
    (p.filter chunk = .ok false →
      next_result p buf ⟨chunk, endB⟩ =
        .ok ((endB == ReadEnd.wouldBlock), buf)) ∧
    (p.filter chunk = .err e →
      next_result p buf ⟨chunk, endB⟩ = .err e) ∧
    (∀ (st : R2State) (r : Round) (rs : List Round) (e2 : IoError),
      st.length ≠ 0 → runRound (p, q) st r = .err e2 →
      read2Loop (p, q) st (r :: rs) = .err e2) ∧
    (∀ (evs : List ReadEvent) (lastEv : ReadEvent),
      (∀ ev ∈ evs, ev.outcome = ReadEnd.wouldBlock ∧
        ∃ bl, p.filter ev.chunk = .ok bl) →
      lastEv.outcome = ReadEnd.eof →
      (∃ bl, p.filter lastEv.chunk = .ok bl) →
      read2 1 (p, q) (roundsOf (evs ++ [lastEv])) =
        .ok (some (acceptedConcat p.filter (evs ++ [lastEv]), []))) := by
  refine ⟨?_, ?_, ?_, ?_, ?_⟩
  · intro hf
    rcases hb with hb | hb <;> subst hb
    · rw [next_result_benign_eof rfl hf]
      simp
    · rw [next_result_benign_wb rfl hf]
      simp
  · intro hf
    rcases hb with hb | hb <;> subst hb
    · rw [next_result_benign_eof rfl hf]
      simp [hne]
    · rw [next_result_benign_wb rfl hf]
      simp [hne]
  · intro hf
    exact next_result_filter_err hb hne hf
  · intro st r rs e2 h0 hrr
    unfold read2Loop
    rw [if_neg h0, hrr]
  · intro evs lastEv hbs hl hlf
    unfold read2
    rw [show initState 1 = ⟨0, 1, ([], []), (false, false)⟩ from rfl]
    rw [read2Loop_single evs lastEv [] [] false hbs hl hlf]
    simp

/-- Witness for claim C6: a one-byte chunk accepted by the length-one
filter is appended verbatim. -/
theorem claim_C6_witness :
    next_result pReject2 [5] ⟨[7], ReadEnd.wouldBlock⟩ = .ok (true, [5, 7]) := by
  have h := (claim_C6 pReject2 pipeAll [5] [7] ReadEnd.wouldBlock ⟨9⟩
    (by decide) (Or.inr rfl)).1 (by decide)
  simpa using h

/-- Claim C10 (confirmed): with no filter configured, `Pipe::new` installs
the constant accept-all filter, `run_filter` never truncates and never
fails, `next_result` appends exactly the bytes read, and a completed
single-stream `read2` run returns exactly the concatenation of all chunks
read — the unfiltered dual-pipe read is the identity on the captured
bytes. -/
theorem claim_C10 (q : Pipe) (chunk buffer : List Nat) (idx : Nat)
    (ev : ReadEvent) (hb : ev.outcome = ReadEnd.eof ∨ ev.outcome = ReadEnd.wouldBlock) :
    (Pipe.new none).filter chunk = .ok true ∧
    (Pipe.new none).run_filter buffer idx = .ok buffer ∧
    next_result (Pipe.new none) buffer ev =
      .ok ((ev.outcome == ReadEnd.wouldBlock), buffer ++ ev.chunk) ∧
    (∀ (evs : List ReadEvent) (lastEv : ReadEvent),
      (∀ ev2 ∈ evs, ev2.outcome = ReadEnd.wouldBlock) →
      lastEv.outcome = ReadEnd.eof →
      read2 1 (Pipe.new none, q) (roundsOf (evs ++ [lastEv])) =
        .ok (some (((evs ++ [lastEv]).map ReadEvent.chunk).flatten, []))) := by
  refine ⟨rfl, rfl, ?_, ?_⟩
  · rcases hb with hb | hb
    · rw [next_result_benign_eof hb rfl]
      rw [hb]
      simp
    · rw [next_result_benign_wb hb rfl]
      rw [hb]
      simp
  · intro evs lastEv hbs hl
    unfold read2
    rw [show initState 1 = ⟨0, 1, ([], []), (false, false)⟩ from rfl]
    rw [read2Loop_single evs lastEv [] [] false
      (fun x hx => ⟨hbs x hx, true, rfl⟩) hl ⟨true, rfl⟩]
    simp [acceptedConcat_acceptAll]

/-- Witness for claim C10: an unfiltered single-stream run captures the
two bytes read, exactly. -/
theorem claim_C10_witness :
    read2 1 (Pipe.new none, pipeAll) (roundsOf ([evChunk] ++ [evEof])) =
      .ok (some ([1, 2], [])) := by
  have h := (claim_C10 pipeAll [] [] 0 evEof (Or.inl rfl)).2.2.2
    [evChunk] evEof (by decide) rfl
  simpa using h

end ProcessControl
